import Mathlib

/-!
# elmprojekt: the page bootstrap `src/index.js`

A shallow embedding of lines 4 to 14 of `src/index.js`: the lookup of the mount
point, the read of the persisted token, the call of `Elm.Main.embed`, and the two
port subscribers that write and delete the token in `localStorage`.

The browser and the compiled Elm application are collaborators outside the
repository. They are modelled as a `World`: a document, a key-value storage that
may throw, an `embed` operation that may throw, and the handle of the mounted
application with its two outgoing ports. The script is a computation in `JS`,
which threads the world, records every call on a collaborator in order, and stops
at the first uncaught exception.
-/

namespace ElmProjekt

/-! ## Values -/

/-- A thrown JavaScript exception, identified by its name. -/
structure JSError where
  name : String
deriving DecidableEq, Repr

/-- A DOM node reference. -/
structure Element where
  node : Nat
deriving DecidableEq, Repr

/-- The JavaScript values that flow through the script: `localStorage.getItem`
returns a string or `null`, the `saveToken` port carries a string, and the
`deleteToken` port carries Elm's unit, which arrives as `null`. -/
inductive JSValue where
  | null
  | str (s : String)
deriving DecidableEq, Repr

/-- The conversion to a string that `localStorage.setItem` applies to its value
argument. -/
def JSValue.toDOMString : JSValue → String
  | .null => "null"
  | .str s => s

/-- An object literal: its fields in order, each a name and a value. -/
abbrev Config := List (String × JSValue)

/-! ## Persistent storage -/

/-- The contents of `localStorage`: keys with their string values. -/
abbrev Storage := List (String × String)

/-- Modelled from the spec: the storage contract `get(key) -> string|null` of the
browser's `localStorage`, which is not part of the repository. The value under
`key`, or `null` when the key is absent. -/
def Storage.get : Storage → String → JSValue
  | [], _ => .null
  | (k, v) :: rest, key => if k = key then .str v else Storage.get rest key

/-- Modelled from the spec: the storage contract `set(key, value)`. The value
under `key` is replaced where the key is present, and the pair is added
otherwise. -/
def Storage.set : Storage → String → String → Storage
  | [], key, value => [(key, value)]
  | (k, v) :: rest, key, value =>
    if k = key then (key, value) :: rest else (k, v) :: Storage.set rest key value

/-- Modelled from the spec: the storage contract `remove(key)`. Every entry under
`key` is dropped; an absent key is not an error. -/
def Storage.remove : Storage → String → Storage
  | [], _ => []
  | (k, v) :: rest, key =>
    if k = key then Storage.remove rest key else (k, v) :: Storage.remove rest key

/-- A call on `localStorage`. -/
inductive StorageCall where
  | getItem (key : String)
  | setItem (key value : String)
  | removeItem (key : String)
deriving DecidableEq, Repr

/-! ## The mounted application -/

/-- The two outgoing ports of the Elm application. -/
inductive Port where
  | saveToken
  | deleteToken
deriving DecidableEq, Repr

/-- The two function literals of `index.js` passed to `subscribe`: the one of
lines 8 to 10 and the one of lines 12 to 14. -/
inductive Subscriber where
  | saveTokenFn
  | deleteTokenFn
deriving DecidableEq, Repr

/-- The handle returned by `Elm.Main.embed`: for each port, the callbacks
subscribed so far, in subscription order. -/
structure App where
  saveToken : List Subscriber
  deleteToken : List Subscriber
deriving DecidableEq, Repr

/-- The callbacks subscribed to a port. -/
def App.subscribers (a : App) : Port → List Subscriber
  | .saveToken => a.saveToken
  | .deleteToken => a.deleteToken

/-- The handle after one more callback is subscribed to a port. -/
def App.addSubscriber (a : App) : Port → Subscriber → App
  | .saveToken, fn => { a with saveToken := a.saveToken ++ [fn] }
  | .deleteToken, fn => { a with deleteToken := a.deleteToken ++ [fn] }

/-! ## Effects and the world -/

/-- A call the script makes on one of its collaborators. -/
inductive Effect where
  | getElementById (id : String)
  | storage (call : StorageCall)
  | embed (node : Option Element) (config : Config)
  | subscribe (port : Port) (fn : Subscriber)
deriving DecidableEq, Repr

/-- Everything outside the script. `storageFault` and `embedFault` say which
calls on the storage and on `Elm.Main.embed` throw, and what they throw; the
script has no influence on them. -/
structure World where
  document : List (String × Element)
  storage : Storage
  storageFault : Storage → StorageCall → Option JSError
  embedFault : Option Element → Config → Option JSError
  app : Option App

/-- The storage keeps its contract: no call on it throws. -/
def StorageWorks (w : World) : Prop :=
  ∀ (s : Storage) (c : StorageCall), w.storageFault s c = none

/-- What running a piece of script gives: a value or the uncaught exception, the
world afterwards, and the calls made on the collaborators, in order. -/
structure Result (α : Type) where
  outcome : Except JSError α
  world : World
  effects : List Effect

/-- A piece of script. -/
def JS (α : Type) : Type := World → Result α

/-- The script that does nothing and has value `a`. -/
def JS.pure {α : Type} (a : α) : JS α := fun w => ⟨.ok a, w, []⟩

/-- Sequencing of two statements: the second runs only when the first did not
throw, and the calls of both are recorded in order. -/
def JS.bind {α β : Type} (m : JS α) (f : α → JS β) : JS β := fun w =>
  match m w with
  | ⟨.error e, w1, t1⟩ => ⟨.error e, w1, t1⟩
  | ⟨.ok a, w1, t1⟩ =>
    match f a w1 with
    | ⟨r, w2, t2⟩ => ⟨r, w2, t1 ++ t2⟩

instance : Monad JS where
  pure := JS.pure
  bind := JS.bind

/-! ## The collaborators' operations -/

/-- The call `document.getElementById(id)`: the element, or `null` (here `none`)
when the document has none with that identifier. It does not throw. -/
def getElementById (id : String) : JS (Option Element) := fun w =>
  ⟨.ok (w.document.lookup id), w, [.getElementById id]⟩

/-- The call `localStorage.getItem(key)`. -/
def getItem (key : String) : JS JSValue := fun w =>
  match w.storageFault w.storage (.getItem key) with
  | some e => ⟨.error e, w, [.storage (.getItem key)]⟩
  | none => ⟨.ok (w.storage.get key), w, [.storage (.getItem key)]⟩

/-- The call `localStorage.setItem(key, value)`. -/
def setItem (key : String) (value : JSValue) : JS Unit := fun w =>
  match w.storageFault w.storage (.setItem key value.toDOMString) with
  | some e => ⟨.error e, w, [.storage (.setItem key value.toDOMString)]⟩
  | none =>
    ⟨.ok (), { w with storage := w.storage.set key value.toDOMString },
      [.storage (.setItem key value.toDOMString)]⟩

/-- The call `localStorage.removeItem(key)`. -/
def removeItem (key : String) : JS Unit := fun w =>
  match w.storageFault w.storage (.removeItem key) with
  | some e => ⟨.error e, w, [.storage (.removeItem key)]⟩
  | none =>
    ⟨.ok (), { w with storage := w.storage.remove key }, [.storage (.removeItem key)]⟩

/-- Modelled from the spec: the mount operation `Elm.Main.embed(node, flags)` of
the compiled Elm application, which is not part of the repository. It either
throws or returns a handle whose two ports have no subscriber yet; it has no
access to the storage. -/
def embed (node : Option Element) (config : Config) : JS Unit := fun w =>
  match w.embedFault node config with
  | some e => ⟨.error e, w, [.embed node config]⟩
  | none => ⟨.ok (), { w with app := some ⟨[], []⟩ }, [.embed node config]⟩

/-- The call `app.ports.<port>.subscribe(fn)`. Without a handle the property
access on `app` throws. -/
def subscribe (port : Port) (fn : Subscriber) : JS Unit := fun w =>
  match w.app with
  | none => ⟨.error ⟨"TypeError"⟩, w, []⟩
  | some a => ⟨.ok (), { w with app := some (a.addSubscriber port fn) }, [.subscribe port fn]⟩

/-! ## The script -/

/-- Lines 8 to 10: `function(token) { localStorage.setItem('token', token) }`. -/
def saveTokenSubscriber (token : JSValue) : JS Unit :=
  setItem "token" token

/-- Lines 12 to 14: `function(){ localStorage.removeItem('token') }`. -/
def deleteTokenSubscriber : JS Unit :=
  removeItem "token"

/-- Calling one of the two function literals with the value a port emits. The
second one takes no parameter and ignores the value. -/
def Subscriber.call : Subscriber → JSValue → JS Unit
  | .saveTokenFn, v => saveTokenSubscriber v
  | .deleteTokenFn, _ => deleteTokenSubscriber

/-- Lines 4 to 14 of `index.js`, the module's top level. The argument
`localStorage.getItem('token')` is evaluated before `Elm.Main.embed` is called. -/
def bootstrap : JS Unit := do
  let root ← getElementById "root"
  let token ← getItem "token"
  embed root [("token", token)]
  subscribe .saveToken .saveTokenFn
  subscribe .deleteToken .deleteTokenFn

/-! ## Emissions of the mounted application -/

/-- A notification sent by the Elm application on one of its ports. -/
inductive Emission where
  | saveToken (payload : String)
  | deleteToken
deriving DecidableEq, Repr

/-- The port an emission is sent on. -/
def Emission.port : Emission → Port
  | .saveToken _ => .saveToken
  | .deleteToken => .deleteToken

/-- The value handed to the subscribers. -/
def Emission.payload : Emission → JSValue
  | .saveToken x => .str x
  | .deleteToken => .null

/-- Calling the subscribers of a port one after the other with the same value. -/
def callAll : List Subscriber → JSValue → JS Unit
  | [], _ => pure ()
  | fn :: fns, v => do
    fn.call v
    callAll fns v

/-- Modelled from the spec: the Elm runtime delivers an emission to the callbacks
subscribed to its port, in subscription order; without a mounted application
there is nothing to deliver. -/
def emit (e : Emission) : JS Unit := fun w =>
  match w.app with
  | none => ⟨.ok (), w, []⟩
  | some a => callAll (a.subscribers e.port) e.payload w

/-- A finite sequence of emissions, each handled to completion before the next. -/
def emitAll : List Emission → JS Unit
  | [] => pure ()
  | e :: es => do
    emit e
    emitAll es

/-- The arguments of the `embed` calls among some effects, in order. -/
def embedCalls : List Effect → List (Option Element × Config)
  | [] => []
  | .embed node config :: rest => (node, config) :: embedCalls rest
  | _ :: rest => embedCalls rest

/-- The storage calls among some effects, in order. -/
def storageCalls : List Effect → List StorageCall
  | [] => []
  | .storage c :: rest => c :: storageCalls rest
  | _ :: rest => storageCalls rest

/-! ## Sample worlds -/

/-- An embed that rejects a missing node, as the Elm runtime does. -/
def rejectNullNode : Option Element → Config → Option JSError
  | none, _ => some ⟨"TypeError"⟩
  | some _, _ => none

/-- A page with the mount point and the token `abc` in storage. -/
def pageWithToken : World :=
  ⟨[("root", ⟨1⟩)], [("lang", "sv"), ("token", "abc")], fun _ _ => none, rejectNullNode, none⟩

/-- A page with the mount point and no token in storage. -/
def pageWithoutToken : World :=
  ⟨[("root", ⟨1⟩)], [("lang", "sv")], fun _ _ => none, rejectNullNode, none⟩

/-- A page without the mount point. -/
def pageWithoutRoot : World :=
  ⟨[("app", ⟨7⟩)], [("token", "abc")], fun _ _ => none, rejectNullNode, none⟩

/-- A page without the mount point whose `embed` accepts a missing node. -/
def pageWithoutRootLenient : World :=
  ⟨[("app", ⟨7⟩)], [("token", "abc")], fun _ _ => none, fun _ _ => none, none⟩

/-- A page whose storage is disabled: every call on it throws. -/
def pageStorageDisabled : World :=
  ⟨[("root", ⟨1⟩)], [], fun _ _ => some ⟨"SecurityError"⟩, rejectNullNode, none⟩

/-! ## Lemmas on the storage contract -/

lemma Storage.get_set_same (s : Storage) (key value : String) :
    (s.set key value).get key = .str value := by
  induction s with
  | nil => simp [Storage.set, Storage.get]
  | cons p rest ih =>
    obtain ⟨k, v⟩ := p
    by_cases h : k = key
    · simp [Storage.set, Storage.get, h]
    · simp [Storage.set, Storage.get, h, ih]

lemma Storage.get_set_other (s : Storage) (key value other : String) (hne : other ≠ key) :
    (s.set key value).get other = s.get other := by
  induction s with
  | nil => simp [Storage.set, Storage.get, Ne.symm hne]
  | cons p rest ih =>
    obtain ⟨k, v⟩ := p
    by_cases h : k = key
    · have hk : ¬ k = other := fun hk => hne (hk.symm.trans h)
      simp [Storage.set, Storage.get, h, Ne.symm hne]
    · by_cases h2 : k = other
      · subst h2
        simp [Storage.set, Storage.get, h]
      · simp [Storage.set, Storage.get, h, h2, ih]

lemma Storage.get_remove_same (s : Storage) (key : String) :
    (s.remove key).get key = .null := by
  induction s with
  | nil => simp [Storage.remove, Storage.get]
  | cons p rest ih =>
    obtain ⟨k, v⟩ := p
    by_cases h : k = key
    · simp [Storage.remove, h, ih]
    · simp [Storage.remove, Storage.get, h, ih]

lemma Storage.get_remove_other (s : Storage) (key other : String) (hne : other ≠ key) :
    (s.remove key).get other = s.get other := by
  induction s with
  | nil => simp [Storage.remove]
  | cons p rest ih =>
    obtain ⟨k, v⟩ := p
    by_cases h : k = key
    · have hk : ¬ k = other := fun hk => hne (hk.symm.trans h)
      simp [Storage.remove, Storage.get, h, ih, Ne.symm hne]
    · by_cases h2 : k = other
      · subst h2
        simp [Storage.remove, Storage.get, h]
      · simp [Storage.remove, Storage.get, h, h2, ih]

lemma Storage.remove_of_get_null (s : Storage) (key : String) (hnull : s.get key = .null) :
    s.remove key = s := by
  induction s with
  | nil => simp [Storage.remove]
  | cons p rest ih =>
    obtain ⟨k, v⟩ := p
    by_cases h : k = key
    · simp [Storage.get, h] at hnull
    · simp [Storage.get, h] at hnull
      simp [Storage.remove, h, ih hnull]

lemma Storage.get_null_iff (s : Storage) (key : String) :
    s.get key = .null ↔ ∀ v, (key, v) ∉ s := by
  induction s with
  | nil => simp [Storage.get]
  | cons p rest ih =>
    obtain ⟨k, v⟩ := p
    by_cases h : k = key
    · subst h
      constructor
      · intro hnull
        simp [Storage.get] at hnull
      · intro hall
        exact absurd (List.mem_cons_self (k, v) rest) (hall v)
    · have hk : ¬ key = k := fun hk => h hk.symm
      simp [Storage.get, h, hk, ih]

lemma Storage.get_of_mem (s : Storage) (key value : String)
    (hkeys : (s.map Prod.fst).Nodup) (hmem : (key, value) ∈ s) :
    s.get key = .str value := by
  induction s with
  | nil => simp at hmem
  | cons p rest ih =>
    obtain ⟨k, v⟩ := p
    simp only [List.map_cons, List.nodup_cons, List.mem_map, not_exists, not_and] at hkeys
    rcases List.mem_cons.mp hmem with heq | htail
    · cases heq
      simp [Storage.get]
    · have hk : ¬ k = key := fun hk => hkeys.1 (key, value) htail hk.symm
      simp [Storage.get, hk, ih hkeys.2 htail]

/-! ## What the bootstrap does, case by case -/

lemma bootstrap_getItem_throws (w : World) (e : JSError)
    (hget : w.storageFault w.storage (.getItem "token") = some e) :
    bootstrap w =
      ⟨.error e, w, [.getElementById "root", .storage (.getItem "token")]⟩ := by
  simp [bootstrap, bind, JS.bind, getElementById, getItem, hget]

lemma bootstrap_embed_throws (w : World) (e : JSError)
    (hget : w.storageFault w.storage (.getItem "token") = none)
    (hembed : w.embedFault (w.document.lookup "root")
      [("token", w.storage.get "token")] = some e) :
    bootstrap w =
      ⟨.error e, w, [.getElementById "root", .storage (.getItem "token"),
        .embed (w.document.lookup "root") [("token", w.storage.get "token")]]⟩ := by
  simp [bootstrap, bind, JS.bind, getElementById, getItem, hget, embed, hembed]

lemma bootstrap_completes (w : World)
    (hget : w.storageFault w.storage (.getItem "token") = none)
    (hembed : w.embedFault (w.document.lookup "root")
      [("token", w.storage.get "token")] = none) :
    bootstrap w =
      ⟨.ok (), { w with app := some ⟨[.saveTokenFn], [.deleteTokenFn]⟩ },
        [.getElementById "root", .storage (.getItem "token"),
         .embed (w.document.lookup "root") [("token", w.storage.get "token")],
         .subscribe .saveToken .saveTokenFn, .subscribe .deleteToken .deleteTokenFn]⟩ := by
  simp [bootstrap, bind, JS.bind, getElementById, getItem, hget, embed, hembed, subscribe,
    App.addSubscriber]

lemma saveTokenSubscriber_completes (w : World) (v : JSValue)
    (hset : w.storageFault w.storage (.setItem "token" v.toDOMString) = none) :
    saveTokenSubscriber v w =
      ⟨.ok (), { w with storage := w.storage.set "token" v.toDOMString },
        [.storage (.setItem "token" v.toDOMString)]⟩ := by
  simp [saveTokenSubscriber, setItem, hset]

lemma saveTokenSubscriber_throws (w : World) (v : JSValue) (e : JSError)
    (hset : w.storageFault w.storage (.setItem "token" v.toDOMString) = some e) :
    saveTokenSubscriber v w =
      ⟨.error e, w, [.storage (.setItem "token" v.toDOMString)]⟩ := by
  simp [saveTokenSubscriber, setItem, hset]

lemma deleteTokenSubscriber_completes (w : World)
    (hrem : w.storageFault w.storage (.removeItem "token") = none) :
    deleteTokenSubscriber w =
      ⟨.ok (), { w with storage := w.storage.remove "token" },
        [.storage (.removeItem "token")]⟩ := by
  simp [deleteTokenSubscriber, removeItem, hrem]

lemma deleteTokenSubscriber_throws (w : World) (e : JSError)
    (hrem : w.storageFault w.storage (.removeItem "token") = some e) :
    deleteTokenSubscriber w = ⟨.error e, w, [.storage (.removeItem "token")]⟩ := by
  simp [deleteTokenSubscriber, removeItem, hrem]

lemma bootstrap_embedCalls (w : World)
    (hget : w.storageFault w.storage (.getItem "token") = none) :
    embedCalls (bootstrap w).effects =
      [(w.document.lookup "root", [("token", w.storage.get "token")])] := by
  cases hembed : w.embedFault (w.document.lookup "root") [("token", w.storage.get "token")] with
  | none => rw [bootstrap_completes w hget hembed]; rfl
  | some e => rw [bootstrap_embed_throws w e hget hembed]; rfl

lemma bootstrap_storage (w : World) : (bootstrap w).world.storage = w.storage := by
  cases hget : w.storageFault w.storage (.getItem "token") with
  | some e => rw [bootstrap_getItem_throws w e hget]
  | none =>
    cases hembed : w.embedFault (w.document.lookup "root")
        [("token", w.storage.get "token")] with
    | none => rw [bootstrap_completes w hget hembed]
    | some e => rw [bootstrap_embed_throws w e hget hembed]

/-! ## Emissions after the bootstrap -/

lemma JS.bind_ok {α β : Type} (m : JS α) (f : α → JS β) (w w1 : World) (a : α)
    (t1 : List Effect) (hm : m w = ⟨.ok a, w1, t1⟩) :
    JS.bind m f w = ⟨(f a w1).outcome, (f a w1).world, t1 ++ (f a w1).effects⟩ := by
  simp [JS.bind, hm]

lemma emit_after_bootstrap (w : World) (e : Emission)
    (happ : w.app = some ⟨[.saveTokenFn], [.deleteTokenFn]⟩) (hworks : StorageWorks w) :
    ∃ (w1 : World) (t : List Effect), emit e w = ⟨.ok (), w1, t⟩
      ∧ w1.app = w.app ∧ w1.storageFault = w.storageFault
      ∧ w1.storage.get "token" =
          (match e with
            | .saveToken x => JSValue.str x
            | .deleteToken => JSValue.null)
      ∧ ∀ k : String, k ≠ "token" → w1.storage.get k = w.storage.get k := by
  cases e with
  | saveToken x =>
    refine ⟨{ w with storage := w.storage.set "token" x },
      [.storage (.setItem "token" x)], ?_, rfl, rfl,
      Storage.get_set_same w.storage "token" x,
      fun k hk => Storage.get_set_other w.storage "token" x k hk⟩
    have hset : w.storageFault w.storage (.setItem "token" x) = none := hworks _ _
    simp [emit, happ, App.subscribers, Emission.port, Emission.payload, callAll,
      Subscriber.call, bind, JS.bind, pure, JS.pure, saveTokenSubscriber, setItem,
      JSValue.toDOMString, hset]
  | deleteToken =>
    refine ⟨{ w with storage := w.storage.remove "token" },
      [.storage (.removeItem "token")], ?_, rfl, rfl,
      Storage.get_remove_same w.storage "token",
      fun k hk => Storage.get_remove_other w.storage "token" k hk⟩
    have hrem : w.storageFault w.storage (.removeItem "token") = none := hworks _ _
    simp [emit, happ, App.subscribers, Emission.port, Emission.payload, callAll,
      Subscriber.call, bind, JS.bind, pure, JS.pure, deleteTokenSubscriber, removeItem,
      hrem]

lemma emitAll_after_bootstrap (es : List Emission) :
    ∀ w : World, w.app = some ⟨[.saveTokenFn], [.deleteTokenFn]⟩ → StorageWorks w →
      (emitAll es w).outcome = .ok ()
        ∧ (emitAll es w).world.storage.get "token" =
            (match es.getLast? with
              | none => w.storage.get "token"
              | some (.saveToken x) => JSValue.str x
              | some .deleteToken => JSValue.null)
        ∧ ∀ k : String, k ≠ "token" → (emitAll es w).world.storage.get k = w.storage.get k := by
  induction es with
  | nil =>
    intro w _ _
    exact ⟨rfl, rfl, fun _ _ => rfl⟩
  | cons e rest ih =>
    intro w happ hworks
    obtain ⟨w1, t, hemit, happ1, hfault1, htoken, hframe⟩ :=
      emit_after_bootstrap w e happ hworks
    have hworks1 : StorageWorks w1 := by
      intro s c
      rw [hfault1]
      exact hworks s c
    obtain ⟨hok, hlast, hothers⟩ := ih w1 (happ1.trans happ) hworks1
    have hrun : emitAll (e :: rest) w =
        ⟨(emitAll rest w1).outcome, (emitAll rest w1).world,
          t ++ (emitAll rest w1).effects⟩ :=
      JS.bind_ok (emit e) (fun _ => emitAll rest) w w1 () t hemit
    rw [hrun]
    refine ⟨hok, ?_, fun k hk => (hothers k hk).trans (hframe k hk)⟩
    cases rest with
    | nil =>
      simp only [List.getLast?_nil] at hlast
      rw [hlast, htoken]
      cases e <;> rfl
    | cons e2 rest2 =>
      rw [List.getLast?_cons_cons]
      cases hl : (e2 :: rest2).getLast? with
      | none => simp at hl
      | some l =>
        rw [hl] at hlast
        cases l with
        | saveToken x => exact hlast
        | deleteToken => exact hlast

/-! ## The claims -/

/-- C1: whenever the read of the token does not throw, the bootstrap calls
`Elm.Main.embed` exactly once, and the configuration it passes is the object with
the single field `token`, whose value is what the storage holds under "token":
the stored string when the key is present, `null` when it is absent. -/
theorem bootstrap_passes_stored_token (w : World)
    (hget : w.storageFault w.storage (.getItem "token") = none) :
    embedCalls (bootstrap w).effects =
        [(w.document.lookup "root", [("token", w.storage.get "token")])]
      ∧ (∀ v : String, (w.storage.map Prod.fst).Nodup → ("token", v) ∈ w.storage →
          embedCalls (bootstrap w).effects =
            [(w.document.lookup "root", [("token", .str v)])])
      ∧ ((∀ v : String, ("token", v) ∉ w.storage) →
          embedCalls (bootstrap w).effects =
            [(w.document.lookup "root", [("token", .null)])]) := by
  refine ⟨bootstrap_embedCalls w hget, ?_, ?_⟩
  · intro v hkeys hmem
    rw [bootstrap_embedCalls w hget, Storage.get_of_mem w.storage "token" v hkeys hmem]
  · intro habsent
    rw [bootstrap_embedCalls w hget, (Storage.get_null_iff w.storage "token").mpr habsent]

/-- Witness of C1: with `token = "abc"` in storage the configuration is
`{ token: "abc" }`. -/
theorem bootstrap_passes_stored_token_witness :
    pageWithToken.storageFault pageWithToken.storage (.getItem "token") = none
      ∧ embedCalls (bootstrap pageWithToken).effects =
          [(some ⟨1⟩, [("token", .str "abc")])] :=
  ⟨rfl, (bootstrap_passes_stored_token pageWithToken rfl).2.1 "abc" (by decide) (by decide)⟩

/-- C2: when the write does not throw, the `saveToken` subscriber called with a
string `x` completes, makes the single storage call `setItem("token", x)` with
`x` as it was given, and leaves a storage whose value under "token" is `x`,
whatever was stored before. -/
theorem saveToken_stores_payload (w : World) (x : String)
    (hset : w.storageFault w.storage (.setItem "token" x) = none) :
    (saveTokenSubscriber (.str x) w).outcome = .ok ()
      ∧ (saveTokenSubscriber (.str x) w).world.storage.get "token" = .str x
      ∧ (saveTokenSubscriber (.str x) w).effects = [.storage (.setItem "token" x)] := by
  have hrun := saveTokenSubscriber_completes w (.str x) hset
  simp only [JSValue.toDOMString] at hrun
  rw [hrun]
  exact ⟨rfl, Storage.get_set_same w.storage "token" x, rfl⟩

/-- Witness of C2: the empty string replaces the stored `abc`. -/
theorem saveToken_stores_payload_witness :
    pageWithToken.storage.get "token" = .str "abc"
      ∧ (saveTokenSubscriber (.str "") pageWithToken).world.storage.get "token" = .str "" :=
  ⟨by decide, (saveToken_stores_payload pageWithToken "" rfl).2.1⟩

/-- C3: when the removal does not throw, the `deleteToken` subscriber completes
and leaves a storage with no entry under "token", whatever was stored before. -/
theorem deleteToken_removes_token (w : World)
    (hrem : w.storageFault w.storage (.removeItem "token") = none) :
    (deleteTokenSubscriber w).outcome = .ok ()
      ∧ (deleteTokenSubscriber w).world.storage.get "token" = .null
      ∧ (∀ v : String, ("token", v) ∉ (deleteTokenSubscriber w).world.storage) := by
  rw [deleteTokenSubscriber_completes w hrem]
  exact ⟨rfl, Storage.get_remove_same w.storage "token",
    (Storage.get_null_iff _ "token").mp (Storage.get_remove_same w.storage "token")⟩

/-- Witness of C3: the stored `abc` is gone after the subscriber ran. -/
theorem deleteToken_removes_token_witness :
    pageWithToken.storage.get "token" = .str "abc"
      ∧ (deleteTokenSubscriber pageWithToken).world.storage.get "token" = .null :=
  ⟨by decide, (deleteToken_removes_token pageWithToken rfl).2.1⟩

/-- C5: when removals do not throw, the `deleteToken` subscriber run on a storage
without "token" completes and returns that very storage, still without the key;
and on any storage, running it twice completes and leaves the same storage as
running it once. -/
theorem deleteToken_idempotent (w : World)
    (hrem : ∀ s : Storage, w.storageFault s (.removeItem "token") = none) :
    (w.storage.get "token" = .null →
        (deleteTokenSubscriber w).outcome = .ok ()
          ∧ (deleteTokenSubscriber w).world.storage = w.storage
          ∧ (deleteTokenSubscriber w).world.storage.get "token" = .null)
      ∧ (deleteTokenSubscriber (deleteTokenSubscriber w).world).outcome = .ok ()
      ∧ (deleteTokenSubscriber (deleteTokenSubscriber w).world).world.storage =
          (deleteTokenSubscriber w).world.storage := by
  have hfirst := deleteTokenSubscriber_completes w (hrem w.storage)
  have hsecond := deleteTokenSubscriber_completes
    { w with storage := w.storage.remove "token" } (hrem (w.storage.remove "token"))
  refine ⟨?_, ?_, ?_⟩
  · intro hnull
    rw [hfirst]
    exact ⟨rfl, Storage.remove_of_get_null w.storage "token" hnull,
      Storage.get_remove_same w.storage "token"⟩
  · rw [hfirst, hsecond]
  · rw [hfirst, hsecond]
    exact Storage.remove_of_get_null _ "token" (Storage.get_remove_same w.storage "token")

/-- Witness of C5: on the page without a token the subscriber changes nothing,
and on the page with one a second run changes nothing more. -/
theorem deleteToken_idempotent_witness :
    (deleteTokenSubscriber pageWithoutToken).world.storage = pageWithoutToken.storage
      ∧ (deleteTokenSubscriber (deleteTokenSubscriber pageWithToken).world).world.storage =
          (deleteTokenSubscriber pageWithToken).world.storage :=
  ⟨((deleteToken_idempotent pageWithoutToken (fun _ => rfl)).1 (by decide)).2.1,
    (deleteToken_idempotent pageWithToken (fun _ => rfl)).2.2⟩

/-- C4, as stated, fails: on a page without the element "root" the bootstrap
still reads the key "token" from storage and still calls `Elm.Main.embed`, with
a missing node; the failure is the one raised by `embed`. -/
theorem missing_root_still_reads_and_embeds :
    pageWithoutRoot.document.lookup "root" = none
      ∧ Effect.storage (.getItem "token") ∈ (bootstrap pageWithoutRoot).effects
      ∧ Effect.embed none [("token", .str "abc")] ∈ (bootstrap pageWithoutRoot).effects
      ∧ (bootstrap pageWithoutRoot).outcome = .error ⟨"TypeError"⟩ := by
  refine ⟨by decide, by decide, by decide, rfl⟩

/-- C4, amended: when the document has no element "root" and the read of the
token does not throw, the bootstrap does not stop at the lookup: its first three
calls are the lookup, the read of "token", and `Elm.Main.embed` with a missing
node and the configuration holding the stored token. What happens next is decided
by `embed` alone. If `embed` throws `e` for the missing node, the bootstrap fails
with `e` right after that call: nothing is subscribed and the world is unchanged.
If `embed` accepts the missing node, the bootstrap completes with both
subscriptions made and the storage unchanged. So the bootstrap raises no error of
its own, `MountPointNotFound` or other: whenever it fails with `e`, that `e` is
what `embed` threw. -/
theorem missing_root_reaches_embed (w : World)
    (hroot : w.document.lookup "root" = none)
    (hget : w.storageFault w.storage (.getItem "token") = none) :
    (bootstrap w).effects.take 3 =
        [.getElementById "root", .storage (.getItem "token"),
         .embed none [("token", w.storage.get "token")]]
      ∧ (∀ e : JSError, w.embedFault none [("token", w.storage.get "token")] = some e →
          bootstrap w =
            ⟨.error e, w, [.getElementById "root", .storage (.getItem "token"),
              .embed none [("token", w.storage.get "token")]]⟩)
      ∧ (w.embedFault none [("token", w.storage.get "token")] = none →
          bootstrap w =
            ⟨.ok (), { w with app := some ⟨[.saveTokenFn], [.deleteTokenFn]⟩ },
              [.getElementById "root", .storage (.getItem "token"),
               .embed none [("token", w.storage.get "token")],
               .subscribe .saveToken .saveTokenFn,
               .subscribe .deleteToken .deleteTokenFn]⟩)
      ∧ (∀ e : JSError, (bootstrap w).outcome = .error e →
          w.embedFault none [("token", w.storage.get "token")] = some e) := by
  refine ⟨?_, ?_, ?_, ?_⟩
  · cases hembed : w.embedFault (w.document.lookup "root")
        [("token", w.storage.get "token")] with
    | none => rw [bootstrap_completes w hget hembed, hroot]; rfl
    | some e => rw [bootstrap_embed_throws w e hget hembed, hroot]; rfl
  · intro e hembed
    rw [← hroot] at hembed
    rw [bootstrap_embed_throws w e hget hembed, hroot]
  · intro hembed
    rw [← hroot] at hembed
    rw [bootstrap_completes w hget hembed, hroot]
  · intro e hfail
    cases hembed : w.embedFault (w.document.lookup "root")
        [("token", w.storage.get "token")] with
    | none =>
      rw [bootstrap_completes w hget hembed] at hfail
      cases hfail
    | some e2 =>
      rw [bootstrap_embed_throws w e2 hget hembed] at hfail
      cases hfail
      rw [← hroot]
      exact hembed

/-- Witness of the amended C4: on the page without the mount point whose `embed`
rejects a missing node the bootstrap ends after the `embed` call, and on the one
whose `embed` accepts it the bootstrap completes with all five calls. -/
theorem missing_root_reaches_embed_witness :
    pageWithoutRoot.document.lookup "root" = none
      ∧ pageWithoutRoot.storageFault pageWithoutRoot.storage (.getItem "token") = none
      ∧ (bootstrap pageWithoutRoot).effects.take 3 =
          [.getElementById "root", .storage (.getItem "token"),
           .embed none [("token", .str "abc")]]
      ∧ (bootstrap pageWithoutRoot).effects =
          [.getElementById "root", .storage (.getItem "token"),
           .embed none [("token", .str "abc")]]
      ∧ (bootstrap pageWithoutRootLenient).outcome = .ok ()
      ∧ (bootstrap pageWithoutRootLenient).effects =
          [.getElementById "root", .storage (.getItem "token"),
           .embed none [("token", .str "abc")],
           .subscribe .saveToken .saveTokenFn, .subscribe .deleteToken .deleteTokenFn] := by
  have hstrict := missing_root_reaches_embed pageWithoutRoot (by decide) rfl
  have hlenient := missing_root_reaches_embed pageWithoutRootLenient (by decide) rfl
  refine ⟨by decide, rfl, hstrict.1, ?_, ?_, ?_⟩
  · rw [hstrict.2.1 ⟨"TypeError"⟩ rfl]
    rfl
  · rw [hlenient.2.2.1 rfl]
  · rw [hlenient.2.2.1 rfl]
    rfl

/-- C6: the token outlives the page. On any later page load whose storage is the
one left by the `saveToken` subscriber called with `x`, the bootstrap passes the
configuration `{ token: x }`; on one whose storage is the one left by the
`deleteToken` subscriber, it passes `{ token: null }`. The storage calls
involved are assumed not to throw. -/
theorem token_persists_across_loads (w : World) (x : String)
    (hset : w.storageFault w.storage (.setItem "token" x) = none)
    (hrem : w.storageFault w.storage (.removeItem "token") = none) :
    (∀ next : World, next.storage = (saveTokenSubscriber (.str x) w).world.storage →
        next.storageFault next.storage (.getItem "token") = none →
        (embedCalls (bootstrap next).effects).map Prod.snd = [[("token", .str x)]])
      ∧ (∀ next : World, next.storage = (deleteTokenSubscriber w).world.storage →
        next.storageFault next.storage (.getItem "token") = none →
        (embedCalls (bootstrap next).effects).map Prod.snd = [[("token", .null)]]) := by
  have hsave := saveTokenSubscriber_completes w (.str x) hset
  simp only [JSValue.toDOMString] at hsave
  constructor
  · intro next hstorage hget
    rw [hsave] at hstorage
    rw [bootstrap_embedCalls next hget, hstorage]
    simp [Storage.get_set_same]
  · intro next hstorage hget
    rw [deleteTokenSubscriber_completes w hrem] at hstorage
    rw [bootstrap_embedCalls next hget, hstorage]
    simp [Storage.get_remove_same]

/-- Witness of C6: after `saveToken("xyz")` the next load mounts with
`{ token: "xyz" }`, and after `deleteToken()` with `{ token: null }`. -/
theorem token_persists_across_loads_witness :
    (embedCalls (bootstrap (saveTokenSubscriber (.str "xyz") pageWithToken).world).effects).map
        Prod.snd = [[("token", .str "xyz")]]
      ∧ (embedCalls (bootstrap (deleteTokenSubscriber pageWithToken).world).effects).map
        Prod.snd = [[("token", .null)]] :=
  ⟨(token_persists_across_loads pageWithToken "xyz" rfl rfl).1 _ rfl rfl,
    (token_persists_across_loads pageWithToken "xyz" rfl rfl).2 _ rfl rfl⟩

/-- C7: a throwing storage call is not caught. If the read of "token" throws `e`,
the bootstrap fails with `e` and its calls end with that read: `embed` is not
called and nothing is subscribed. If the write throws `e`, the `saveToken`
subscriber fails with `e` after that single call, and likewise the `deleteToken`
subscriber when the removal throws. In each case the world is left as it was. -/
theorem storage_failures_propagate (w : World) (e : JSError) :
    (w.storageFault w.storage (.getItem "token") = some e →
        bootstrap w =
          ⟨.error e, w, [.getElementById "root", .storage (.getItem "token")]⟩)
      ∧ (∀ x : String, w.storageFault w.storage (.setItem "token" x) = some e →
        saveTokenSubscriber (.str x) w = ⟨.error e, w, [.storage (.setItem "token" x)]⟩)
      ∧ (w.storageFault w.storage (.removeItem "token") = some e →
        deleteTokenSubscriber w = ⟨.error e, w, [.storage (.removeItem "token")]⟩) := by
  refine ⟨bootstrap_getItem_throws w e, ?_, deleteTokenSubscriber_throws w e⟩
  intro x hset
  exact saveTokenSubscriber_throws w (.str x) e hset

/-- Witness of C7 on the page whose storage is disabled. -/
theorem storage_failures_propagate_witness :
    (bootstrap pageStorageDisabled).outcome = .error ⟨"SecurityError"⟩
      ∧ (bootstrap pageStorageDisabled).effects =
          [.getElementById "root", .storage (.getItem "token")]
      ∧ (saveTokenSubscriber (.str "xyz") pageStorageDisabled).outcome =
          .error ⟨"SecurityError"⟩
      ∧ (deleteTokenSubscriber pageStorageDisabled).outcome = .error ⟨"SecurityError"⟩ := by
  have h := storage_failures_propagate pageStorageDisabled ⟨"SecurityError"⟩
  refine ⟨?_, ?_, ?_, ?_⟩
  · rw [h.1 rfl]
  · rw [h.1 rfl]
  · rw [h.2.1 "xyz" rfl]
  · rw [h.2.2 rfl]

/-- C8: when the element "root" exists, the read of the token does not throw and
`embed` returns a handle, the bootstrap completes and makes exactly five calls in
this order: the lookup of "root", the read of "token", `embed` with the element
found and the configuration, the subscription to `saveToken`, the subscription to
`deleteToken`. Its only storage call is the one read; afterwards each port has
exactly one subscriber; and the only storage call of either subscriber is its
write or its removal, never a read. -/
theorem bootstrap_effects_in_order (w : World) (el : Element)
    (hroot : w.document.lookup "root" = some el)
    (hget : w.storageFault w.storage (.getItem "token") = none)
    (hembed : w.embedFault (some el) [("token", w.storage.get "token")] = none) :
    (bootstrap w).outcome = .ok ()
      ∧ (bootstrap w).effects =
          [.getElementById "root", .storage (.getItem "token"),
           .embed (some el) [("token", w.storage.get "token")],
           .subscribe .saveToken .saveTokenFn, .subscribe .deleteToken .deleteTokenFn]
      ∧ storageCalls (bootstrap w).effects = [.getItem "token"]
      ∧ (bootstrap w).world.app = some ⟨[.saveTokenFn], [.deleteTokenFn]⟩
      ∧ (∀ (w1 : World) (v : JSValue),
          storageCalls (saveTokenSubscriber v w1).effects = [.setItem "token" v.toDOMString])
      ∧ (∀ w1 : World,
          storageCalls (deleteTokenSubscriber w1).effects = [.removeItem "token"]) := by
  rw [← hroot] at hembed
  rw [bootstrap_completes w hget hembed, hroot]
  refine ⟨rfl, rfl, rfl, rfl, ?_, ?_⟩
  · intro w1 v
    cases hset : w1.storageFault w1.storage (.setItem "token" v.toDOMString) with
    | none => rw [saveTokenSubscriber_completes w1 v hset]; rfl
    | some e => rw [saveTokenSubscriber_throws w1 v e hset]; rfl
  · intro w1
    cases hrem : w1.storageFault w1.storage (.removeItem "token") with
    | none => rw [deleteTokenSubscriber_completes w1 hrem]; rfl
    | some e => rw [deleteTokenSubscriber_throws w1 e hrem]; rfl

/-- Witness of C8 on the page with the mount point and a stored token. -/
theorem bootstrap_effects_in_order_witness :
    pageWithToken.document.lookup "root" = some ⟨1⟩
      ∧ (bootstrap pageWithToken).effects =
          [.getElementById "root", .storage (.getItem "token"),
           .embed (some ⟨1⟩) [("token", .str "abc")],
           .subscribe .saveToken .saveTokenFn, .subscribe .deleteToken .deleteTokenFn] :=
  ⟨by decide, (bootstrap_effects_in_order pageWithToken ⟨1⟩ (by decide) rfl rfl).2.1⟩

/-- C9: the subscribers touch no key but "token": for every key `k` other than
"token", the value under `k` is the same before and after the `saveToken`
subscriber runs with any string, and before and after the `deleteToken`
subscriber runs. The bootstrap leaves the whole storage as it was. -/
theorem storage_frame (w : World) (x k : String) (hk : k ≠ "token") :
    (saveTokenSubscriber (.str x) w).world.storage.get k = w.storage.get k
      ∧ (deleteTokenSubscriber w).world.storage.get k = w.storage.get k
      ∧ (bootstrap w).world.storage = w.storage := by
  refine ⟨?_, ?_, bootstrap_storage w⟩
  · cases hset : w.storageFault w.storage (.setItem "token" (JSValue.str x).toDOMString) with
    | none =>
      rw [saveTokenSubscriber_completes w (.str x) hset]
      exact Storage.get_set_other w.storage "token" _ k hk
    | some e => rw [saveTokenSubscriber_throws w (.str x) e hset]
  · cases hrem : w.storageFault w.storage (.removeItem "token") with
    | none =>
      rw [deleteTokenSubscriber_completes w hrem]
      exact Storage.get_remove_other w.storage "token" k hk
    | some e => rw [deleteTokenSubscriber_throws w e hrem]

/-- Witness of C9: the key "lang" keeps its value `sv` through a save and
through a delete. -/
theorem storage_frame_witness :
    "lang" ≠ "token"
      ∧ (saveTokenSubscriber (.str "xyz") pageWithToken).world.storage.get "lang" = .str "sv"
      ∧ (deleteTokenSubscriber pageWithToken).world.storage.get "lang" = .str "sv" :=
  ⟨by decide, (storage_frame pageWithToken "xyz" "lang" (by decide)).1,
    (storage_frame pageWithToken "xyz" "lang" (by decide)).2.1⟩

/-- C10: the last emission wins. After a bootstrap that completed, with a storage
that does not throw, any finite sequence of emissions handled in order completes,
and the value then stored under "token" is decided by the last emission alone:
`x` after `saveToken(x)`, absent after `deleteToken()`, and the initial value
when the sequence is empty. Every other key keeps its initial value. -/
theorem last_emission_wins (w : World) (es : List Emission)
    (hworks : StorageWorks w) (hboot : (bootstrap w).outcome = .ok ()) :
    (emitAll es (bootstrap w).world).outcome = .ok ()
      ∧ (emitAll es (bootstrap w).world).world.storage.get "token" =
          (match es.getLast? with
            | none => w.storage.get "token"
            | some (.saveToken x) => JSValue.str x
            | some .deleteToken => JSValue.null)
      ∧ ∀ k : String, k ≠ "token" →
          (emitAll es (bootstrap w).world).world.storage.get k = w.storage.get k := by
  have hget : w.storageFault w.storage (.getItem "token") = none := hworks _ _
  cases hembed : w.embedFault (w.document.lookup "root")
      [("token", w.storage.get "token")] with
  | some e =>
    rw [bootstrap_embed_throws w e hget hembed] at hboot
    cases hboot
  | none =>
    rw [bootstrap_completes w hget hembed]
    exact emitAll_after_bootstrap es _ rfl hworks

/-- Witness of C10: after save, delete, save the token is the last one saved, and
the key "lang" still holds `sv`. -/
theorem last_emission_wins_witness :
    StorageWorks pageWithToken
      ∧ (bootstrap pageWithToken).outcome = .ok ()
      ∧ (emitAll [.saveToken "a", .deleteToken, .saveToken "b"]
          (bootstrap pageWithToken).world).world.storage.get "token" = .str "b"
      ∧ (emitAll [.saveToken "a", .deleteToken, .saveToken "b"]
          (bootstrap pageWithToken).world).world.storage.get "lang" = .str "sv" :=
  ⟨fun _ _ => rfl, rfl,
    (last_emission_wins pageWithToken [.saveToken "a", .deleteToken, .saveToken "b"]
      (fun _ _ => rfl) rfl).2.1,
    (last_emission_wins pageWithToken [.saveToken "a", .deleteToken, .saveToken "b"]
      (fun _ _ => rfl) rfl).2.2 "lang" (by decide)⟩

end ElmProjekt
